import Mathlib

/-!
Verification of the `lompe` conductance module (`src/utils/conductance.py`).

The module exposes three functions:
* `hardy(mlat, mlt, kp, hallOrPed)` — Hardy (1987) auroral conductance from
  Fourier-reconstructed Epstein parameters, with floor clamping;
* `EUV_conductance(sza, F107, hallOrPed, calibration)` — EUV conductance by
  linear interpolation of a scaled Chapman production table;
* `hardy_EUV(lon, lat, kp, time, ...)` — the combiner, summing the two
  contributions plus a constant `starlight` term.

The embedding below models array code per flattened sample (all array
operations in the source are elementwise), keeps numpy shape semantics in a
separate shape model, and treats the three on-disk data tables (the Chapman
production values and the two Hardy coefficient tables) as parameters, since
they are data assets, not code.  Machine floats are modelled as real numbers.
External collaborators (`Dipole.geo2mag`, `mag2geo`, `mlon2mlt`, and
`sunlight.sza`) are opaque function parameters, as the spec specifies them
only by interface.
-/

namespace Lompe

/-! ## Python scalar values (for the `kp` argument)

`hardy` validates `kp` with `assert kp in [0, 1, 2, 3, 4, 5, 6]`, which uses
Python `==`: numeric types (int, float, bool) compare by numeric value, and
strings compare only with strings. -/

/-- A Python scalar value, as can be passed for `kp`.  Floats are modelled as
rationals (every Python float is a rational number). -/
inductive PyVal where
  | int : ℤ → PyVal
  | float : ℚ → PyVal
  | bool : Bool → PyVal
  | str : String → PyVal
deriving DecidableEq

/-- Numeric value of a Python scalar, if it has one (`True == 1`, `False == 0`). -/
def pyNum : PyVal → Option ℚ
  | .int n => some (n : ℚ)
  | .float q => some q
  | .bool b => some (if b then 1 else 0)
  | .str _ => none

/-- Python `==` on the scalars above: numeric cross-type comparison by value,
string-string comparison by content, numeric-string always unequal. -/
def pyEq (a b : PyVal) : Bool :=
  match pyNum a, pyNum b with
  | some x, some y => decide (x = y)
  | _, _ =>
    match a, b with
    | .str s, .str t => decide (s = t)
    | _, _ => false

/-- Python `str()` of a scalar, as used to build the Kp row key `'K' + str(kp)`.
Integral floats print as `n.0` and booleans as `True`/`False`; non-integral
floats never reach `str` in `hardy` (they fail the Kp assert), so their exact
rendering is irrelevant here. -/
def pyStr : PyVal → String
  | .int n => toString n
  | .float q => if q.den = 1 then toString q.num ++ ".0" else toString q
  | .bool b => if b then "True" else "False"
  | .str s => s

/-- The membership test `kp in [0, 1, 2, 3, 4, 5, 6]` from `hardy` (line 289). -/
def kpValid (kp : PyVal) : Bool :=
  (List.range 7).any (fun n => pyEq kp (PyVal.int (n : ℤ)))

/-- The row-selection key `'K' + str(kp)` from `hardy` (lines 301, 325). -/
def kpKey (kp : PyVal) : String := "K" ++ pyStr kp

/-! ## String helpers (Python semantics used by the source) -/

/-- Python `a in b` for strings is a substring test; this is the list-level
contiguous-sublist test. -/
def listInfix (a : List Char) : List Char → Bool
  | [] => a.isEmpty
  | c :: t => (a.isPrefixOf (c :: t)) || listInfix a t

/-- Python `a in b` on strings (substring containment). -/
def strIn (a b : String) : Bool := listInfix a.toList b.toList

/-- Python `s.lower()` (characterwise lower-casing). -/
def strLower (s : String) : String := ⟨s.data.map Char.toLower⟩

/-- Python `c in s` for a single character `c` (lines 178–179, 299, 323). -/
def strContains (s : String) (c : Char) : Bool := s.data.contains c

/-- The assert `hallOrPed.lower() in ['h','p','hp']` shared by `hardy` and
`EUV_conductance` (lines 170, 288), applied to the lower-cased string. -/
def validHOP (s : String) : Bool := s = "h" || s = "p" || s = "hp"

/-- Channel-token resolution in `hardy_EUV` (lines 69–74): three successive
`if`s — Python substring tests `s in 'hall'`, `s in 'pedersen'`, then list
membership `s in ['hp', 'hallandpedersen']`; the matching sets are disjoint on
the six valid tokens, so the sequential assignments reduce to this selection. -/
def hopOf (s : String) : String :=
  if s = "hp" ∨ s = "hallandpedersen" then "hp"
  else if strIn s "pedersen" then "p"
  else if strIn s "hall" then "h"
  else ""

/-! ## numpy shape model

`hardy_EUV` (lines 54–56) and `hardy` (lines 291–293) promote their inputs
with `np.array(x, ndmin = 1)`, take `np.broadcast(a, b).shape`, flatten,
compute, and reshape to that shape.  `EUV_conductance` (line 168) records
`np.array(sza).shape` (no `ndmin`) and reshapes to it.  Shapes are modelled as
dimension lists, `[]` for a 0-d (scalar-shaped) array. -/

/-- numpy pairwise dimension broadcasting: equal dims broadcast to themselves,
a dim of 1 stretches to the other, anything else is an error. -/
def broadcastDim (a b : ℕ) : Option ℕ :=
  if a = b then some a else if a = 1 then some b else if b = 1 then some a else none

/-- Broadcasting over reversed shape lists (trailing dimensions aligned). -/
def bcRev : List ℕ → List ℕ → Option (List ℕ)
  | [], ys => some ys
  | x :: xs, [] => some (x :: xs)
  | x :: xs, y :: ys =>
    match broadcastDim x y, bcRev xs ys with
    | some d, some rest => some (d :: rest)
    | _, _ => none

/-- `np.broadcast(a, b).shape`. -/
def broadcastShape (a b : List ℕ) : Option (List ℕ) :=
  (bcRev a.reverse b.reverse).map List.reverse

/-- `np.array(x, ndmin = 1)` on shapes: a scalar becomes a length-1 1-d array. -/
def ndmin1 (s : List ℕ) : List ℕ := if s = [] then [1] else s

/-- Output shape of `hardy`: broadcast of the `ndmin = 1` promotions of the
`mlat` and `mlt` shapes (lines 291–293, 347–351). -/
def hardyOutShape (a b : List ℕ) : Option (List ℕ) :=
  broadcastShape (ndmin1 a) (ndmin1 b)

/-- Output shape of `hardy_EUV`: broadcast of the `ndmin = 1` promotions of the
`lat` and `lon` shapes (lines 54–56, 85–89). -/
def hardyEUVOutShape (a b : List ℕ) : Option (List ℕ) :=
  broadcastShape (ndmin1 a) (ndmin1 b)

/-- Output shape of `EUV_conductance`: the shape of `np.array(sza)` itself
(lines 168, 243–249). -/
def euvOutShape (s : List ℕ) : List ℕ := s

/-! ## Hardy auroral evaluator (`hardy`, lines 252–351)

The Hall and Pedersen coefficient tables are data files
(`hardy_hall_coefficients.txt`, `hardy_pedersen_coefficients.txt`) outside the
source tree; they are modelled as row lists passed in as parameters. -/

/-- One row of a Hardy coefficient table: a Kp label (`K0`..`K6`), a Fourier
term label (e.g. `const`, or a sine/cosine harmonic whose order is the label's
final digit), and the four Epstein-parameter coefficients (columns `maxvalue`,
`maxlatitude`, `up-slope`, `down-slope`). -/
structure HardyRow where
  Kp : String
  term : String
  maxvalue : ℝ
  maxlatitude : ℝ
  upslope : ℝ
  downslope : ℝ

/-- Modelled from the spec: the Kp labels occurring in the Hardy coefficient
data files, which are not under `src/` — per the spec they are delimited text
with "a Kp label (`K0`..`K6`)" on each row. -/
def validKpLabels : List String := ["K0", "K1", "K2", "K3", "K4", "K5", "K6"]

/-- Row selection `hc[hc.Kp == 'K' + str(kp)]` (lines 301, 325). -/
def selectRows (table : List HardyRow) (key : String) : List HardyRow :=
  table.filter (fun r => decide (r.Kp = key))

/-- Harmonic order of a term: `int(t[-1] if t[-1] != 't' else 0)` (lines 304,
328) — the final character of the label as a digit, with labels ending in `t`
(the `const` term) mapped to 0. -/
def termOrder (t : String) : ℕ :=
  if t.back = 't' then 0 else t.back.toNat - 48

/-- The four reconstructed Epstein parameters
(`maxvalue`/`maxlatitude`/`up-slope`/`down-slope` accumulator dictionary of
lines 308, 332). -/
structure Epstein where
  maxvalue : ℝ
  maxlatitude : ℝ
  upslope : ℝ
  downslope : ℝ

noncomputable section

/-- Trig function of a term: `np.sin if t[:3] == 'Sin' else np.cos` (lines
305, 329); the constant term is a cosine with harmonic order 0. -/
def termTrig (t : String) : ℝ → ℝ :=
  if t.take 3 = "Sin" then Real.sin else Real.cos

/-- The factor `trig(n * mlt / 12 * π)` a row contributes at local time
`mlt` (lines 312, 336). -/
def trigVal (r : HardyRow) (mlt : ℝ) : ℝ :=
  termTrig r.term ((termOrder r.term : ℝ) * mlt / 12 * Real.pi)

/-- One iteration of the accumulation loop (lines 309–312, 333–336): add
`coefficient * trig(n * mlt / 12 * π)` to each of the four parameters. -/
def epsteinStep (mlt : ℝ) (acc : Epstein) (r : HardyRow) : Epstein :=
  ⟨acc.maxvalue + r.maxvalue * trigVal r mlt,
   acc.maxlatitude + r.maxlatitude * trigVal r mlt,
   acc.upslope + r.upslope * trigVal r mlt,
   acc.downslope + r.downslope * trigVal r mlt⟩

/-- Fourier reconstruction of the Epstein parameters from the selected rows:
the accumulation loop started from the all-zero dictionary (lines 308–312). -/
def epsteinParams (rows : List HardyRow) (mlt : ℝ) : Epstein :=
  rows.foldl (epsteinStep mlt) ⟨0, 0, 0, 0⟩

/-- The Epstein transition-function conductance (lines 316, 340):
`r + S1*(mlat - h0) + (S2 - S1) * log((1 - S1/(S2*exp(-(mlat - h0)))) / (1 - S1/S2))`
with `r` = maxvalue, `S1` = up-slope, `S2` = down-slope, `h0` = maxlatitude.
Lean's real division is total, so this formula only gives the value of an
evaluation that completes in Python; the one run-time error line 316 can
raise — `ZeroDivisionError` from the plain-int division `S1/S2` when the row
selection was empty — is tracked separately by `hardyExc` below (`mlat` is an
ndarray after line 291, so every other division is numpy division and yields
`nan` rather than raising). -/
def epsteinCond (p : Epstein) (mlat : ℝ) : ℝ :=
  p.maxvalue + p.upslope * (mlat - p.maxlatitude) +
    (p.downslope - p.upslope) *
      Real.log ((1 - p.upslope / (p.downslope * Real.exp (-(mlat - p.maxlatitude)))) /
        (1 - p.upslope / p.downslope))

/-- First floor assignment (lines 319, 343): where `mlat < h0` and the
conductance is negative, set it to 0. -/
def floor1 (mlat h0 c : ℝ) : ℝ := if mlat < h0 ∧ c < 0 then 0 else c

/-- Second floor assignment (lines 320, 344): where `mlat > h0` (strictly) and
the conductance is below 0.55, set it to 0.55. -/
def floor2 (mlat h0 c : ℝ) : ℝ := if mlat > h0 ∧ c < 0.55 then 0.55 else c

/-- Both floor assignments in source order. -/
def applyFloors (mlat h0 c : ℝ) : ℝ := floor2 mlat h0 (floor1 mlat h0 c)

/-- The per-sample conductance of one Hardy channel, after row selection for
the given Kp: Epstein conductance with floors.  `mlat` here is the absolute
magnetic latitude (`np.abs` is applied at line 291 before this point). -/
def hardyCondOf (table : List HardyRow) (kp : PyVal) (mlat mlt : ℝ) : ℝ :=
  let p := epsteinParams (selectRows table (kpKey kp)) mlt
  applyFloors mlat p.maxlatitude (epsteinCond p mlat)

/-- Result of an evaluator: one channel or the (Hall, Pedersen) pair. -/
inductive Channels where
  | one : ℝ → Channels
  | two : ℝ → ℝ → Channels

/-- Whether an evaluator call raised (Python assert → `AssertionError`). -/
def isErr : Except String Channels → Bool
  | .error _ => true
  | .ok _ => false

/-- `hardy(mlat, mlt, kp, hallOrPed)` per flattened sample (lines 252–351):
assert the channel token and the Kp value, take `np.abs(mlat)`, evaluate the
requested channel(s) from the coefficient tables, and return one value or the
(Hall, Pedersen) pair.  This is the value-level semantics of an evaluation
that completes; the `ZeroDivisionError` that lines 316/340 raise when an
evaluated row selection is empty is captured by the refinement `hardyExc`,
which agrees with this function whenever no evaluated selection is empty. -/
def hardy (hallT pedT : List HardyRow) (mlat mlt : ℝ) (kp : PyVal)
    (hallOrPed : String) : Except String Channels :=
  if validHOP (strLower hallOrPed) then
    if kpValid kp then
      let am := |mlat|
      if (strLower hallOrPed) = "h" then .ok (.one (hardyCondOf hallT kp am mlt))
      else if (strLower hallOrPed) = "p" then .ok (.one (hardyCondOf pedT kp am mlt))
      else .ok (.two (hardyCondOf hallT kp am mlt) (hardyCondOf pedT kp am mlt))
    else .error "hardy: Kp must be an integer in the range 0-6"
  else .error "hardy: Must select one of h, p, or hp for hallOrPed!"

/-- `hardy` with the Python error path of lines 316/340 made explicit.  The
accumulator dictionary (lines 308, 332) starts as the Python int `0`
(`[0]*4`) and is replaced by numpy arrays on the first loop iteration, so
when the key `'K' + str(kp)` selects no rows the loop body never runs and
`S1`, `S2` are still plain ints at line 316; there the subexpression
`(1 - (S1/S2))` performs Python integer division `0/0` and raises
`ZeroDivisionError`.  All other divisions in the formula involve numpy
arrays (`mlat` is an ndarray after line 291), so they produce `nan` instead
of raising.  The Hall block (lines 299–320) runs before the Pedersen block
(lines 323–344), so for channel `hp` an empty Hall selection raises first.
When no evaluated selection is empty this agrees with `hardy`. -/
def hardyExc (hallT pedT : List HardyRow) (mlat mlt : ℝ) (kp : PyVal)
    (hallOrPed : String) : Except String Channels :=
  if validHOP (strLower hallOrPed) then
    if kpValid kp then
      if strContains (strLower hallOrPed) 'h' && (selectRows hallT (kpKey kp)).isEmpty then
        .error "ZeroDivisionError"
      else if strContains (strLower hallOrPed) 'p' && (selectRows pedT (kpKey kp)).isEmpty then
        .error "ZeroDivisionError"
      else hardy hallT pedT mlat mlt kp hallOrPed
    else .error "hardy: Kp must be an integer in the range 0-6"
  else .error "hardy: Must select one of h, p, or hp for hallOrPed!"

/-- A coefficient table conforming to the documented schema, with one
constant row per Kp level `K0`..`K6`. -/
def T7 : List HardyRow :=
  [⟨"K0", "const", 1, 60, 1, 2⟩, ⟨"K1", "const", 1, 60, 1, 2⟩, ⟨"K2", "const", 1, 60, 1, 2⟩,
   ⟨"K3", "const", 1, 60, 1, 2⟩, ⟨"K4", "const", 1, 60, 1, 2⟩, ⟨"K5", "const", 1, 60, 1, 2⟩,
   ⟨"K6", "const", 1, 60, 1, 2⟩]

end

/-! ## EUV conductance evaluator (`EUV_conductance`, lines 93–249)

The Chapman production table (`chapman_euv_productionvalues.txt`, 1201 values
for sza = 0.0, 0.1, …, 120.0 degrees) is a data file outside the source tree;
it is modelled as a function `prod : ℕ → ℝ` of the grid index. -/

/-- The three recognized calibration names (line 181). -/
def calList : List String := ["MoenBrekke1993", "MoenBrekke1993_alt", "Cousinsetal2015"]

/-- Calibration fallback (lines 181–184): an unrecognized name is replaced by
the default `MoenBrekke1993` (with a printed diagnostic, a side effect not
modelled here). -/
def calFallback (cal : String) : String :=
  if cal ∈ calList then cal else "MoenBrekke1993"

noncomputable section

/-- The Hall scaled array at grid index `i` (lines 186–237): for
`MoenBrekke1993`, `F107^0.53 * (0.81*production + 0.54*sqrt(production))`; for
`MoenBrekke1993_alt`, `F107^0.53 * HalScl * production^hallexponent` with
`HalScl = 1.35`, `hallexponent = 0.79`; for `Cousinsetal2015` the same form
with `HalScl = 1.8`, `hallexponent = 1` and F10.7 exponent `0.5`. -/
def hallScaledArr (prod : ℕ → ℝ) (F107 : ℝ) (cal : String) (i : ℕ) : ℝ :=
  if cal = "MoenBrekke1993" then
    F107 ^ (0.53 : ℝ) * (0.81 * prod i + 0.54 * Real.sqrt (prod i))
  else if cal = "MoenBrekke1993_alt" then
    F107 ^ (0.53 : ℝ) * 1.35 * prod i ^ (0.79 : ℝ)
  else
    F107 ^ (0.5 : ℝ) * 1.8 * prod i ^ (1 : ℝ)

/-- The Pedersen scaled array at grid index `i` (lines 186–237): for
`MoenBrekke1993`, `F107^0.49 * (0.34*production + 0.93*sqrt(production))`; for
`MoenBrekke1993_alt`, `F107^0.49 * 1.27 * production^0.65`; for
`Cousinsetal2015`, `F107^0.667 * 0.5 * production^0.667`. -/
def pedScaledArr (prod : ℕ → ℝ) (F107 : ℝ) (cal : String) (i : ℕ) : ℝ :=
  if cal = "MoenBrekke1993" then
    F107 ^ (0.49 : ℝ) * (0.34 * prod i + 0.93 * Real.sqrt (prod i))
  else if cal = "MoenBrekke1993_alt" then
    F107 ^ (0.49 : ℝ) * 1.27 * prod i ^ (0.65 : ℝ)
  else
    F107 ^ (0.667 : ℝ) * 0.5 * prod i ^ (0.667 : ℝ)

/-- Segment index used by `scipy.interpolate.interp1d` with
`fill_value='extrapolate'` over the grid `MODELSZAS = np.arange(0, 120.1, 0.1)`
(grid point `i` at `i/10` degrees, `i = 0..1200`): the bracketing-segment
lower index, clipped to the first/last segment so that out-of-range inputs are
extended linearly along the nearest boundary segment. -/
def interpIdx (x : ℝ) : ℕ := (max 0 (min 1199 ⌊10 * x⌋)).toNat

/-- Linear interpolation (and linear extrapolation beyond [0°, 120°]) of the
table `y` over the grid `i ↦ i/10` degrees, as `interp1d(MODELSZAS, y,
fill_value='extrapolate')` evaluates at `x` (lines 214–237). -/
def linInterp (y : ℕ → ℝ) (x : ℝ) : ℝ :=
  y (interpIdx x) + (y (interpIdx x + 1) - y (interpIdx x)) * (10 * x - (interpIdx x : ℝ))

/-- The clamp `sig[sig < 0] = 0` (lines 241–248). -/
def clampNeg (v : ℝ) : ℝ := if v < 0 then 0 else v

/-- The Hall output value of `EUV_conductance` at one `sza` sample: fallback
calibration, scaled-table interpolation, clamp at 0. -/
def sigH (prod : ℕ → ℝ) (F107 : ℝ) (cal : String) (sza : ℝ) : ℝ :=
  clampNeg (linInterp (hallScaledArr prod F107 (calFallback cal)) sza)

/-- The Pedersen output value of `EUV_conductance` at one `sza` sample. -/
def sigP (prod : ℕ → ℝ) (F107 : ℝ) (cal : String) (sza : ℝ) : ℝ :=
  clampNeg (linInterp (pedScaledArr prod F107 (calFallback cal)) sza)

/-- `EUV_conductance(sza, F107, hallOrPed, calibration)` per `sza` sample
(lines 93–249): assert the channel token, decide the requested channels with
the substring tests `'h' in hallOrPed.lower()` / `'p' in hallOrPed.lower()`,
and return the clamped interpolated value(s). -/
def EUV_conductance (prod : ℕ → ℝ) (sza F107 : ℝ) (hallOrPed : String)
    (calibration : String) : Except String Channels :=
  if validHOP (strLower hallOrPed) then
    let getH := strContains (strLower hallOrPed) 'h'
    let getP := strContains (strLower hallOrPed) 'p'
    if getH && getP then
      .ok (.two (sigH prod F107 calibration sza) (sigP prod F107 calibration sza))
    else if getH then .ok (.one (sigH prod F107 calibration sza))
    else .ok (.one (sigP prod F107 calibration sza))
  else .error "EUV_conductance: Must select one of h, p, or hp for hallOrPed!"

/-! ## Conductance combiner (`hardy_EUV`, lines 12–89)

The dipole transforms and the solar-zenith-angle function live in modules of
the repository outside `src/` (`lompe.dipole.dipole`, `lompe.utils.sunlight`);
the spec lists them only as external collaborator interfaces, so they are
opaque function parameters here (the `time` argument is folded into them). -/

/-- Final combination (lines 84–89): per channel, auroral component plus EUV
component plus the constant `starlight`. -/
def combine (hop : String) (euv hc : Channels) (starlight : ℝ) : Except String Channels :=
  match hop, euv, hc with
  | "h", .one v, .two hh _ => .ok (.one (hh + v + starlight))
  | "p", .one v, .two _ pp => .ok (.one (pp + v + starlight))
  | _, .two vh vp, .two hh pp => .ok (.two (hh + vh + starlight) (pp + vp + starlight))
  | _, _, _ => .error "hardy_EUV: unexpected"

/-- `hardy_EUV(lon, lat, kp, time, hall_or_pedersen, starlight, F107, dipole,
calibration)` per flattened sample (lines 12–89): validate the channel token,
derive magnetic and geographic coordinates according to the `dipole` flag,
compute `mlt` and `sza` via the external collaborators, call both evaluators,
and sum the components channelwise with `starlight`. -/
def hardy_EUV (hallT pedT : List HardyRow) (prod : ℕ → ℝ)
    (geo2mag mag2geo : ℝ → ℝ → ℝ × ℝ) (mlon2mlt : ℝ → ℝ) (szaOf : ℝ → ℝ → ℝ)
    (lon lat : ℝ) (kp : PyVal) (hall_or_pedersen : String)
    (starlight F107 : ℝ) (dipole : Bool) (calibration : String) :
    Except String Channels :=
  if (strLower hall_or_pedersen) ∈
      (["hall", "h", "pedersen", "p", "hp", "hallandpedersen"] : List String) then
    let mlat := if dipole then lat else (geo2mag lat lon).1
    let mlon := if dipole then lon else (geo2mag lat lon).2
    let glat := if dipole then (mag2geo lat lon).1 else lat
    let glon := if dipole then (mag2geo lat lon).2 else lon
    let mlt := mlon2mlt mlon
    let sza := szaOf glat glon
    let hop := hopOf (strLower hall_or_pedersen)
    match EUV_conductance prod sza F107 hop calibration,
        hardy hallT pedT mlat mlt kp "hp" with
    | .ok euv, .ok hc => combine hop euv hc starlight
    | .error e, _ => .error e
    | _, .error e => .error e
  else .error "hardy_EUV: hall_or_pedersen must be either hall or pedersen, or hallandpedersen"

end

/-! ## Helper lemmas -/

lemma strLower_hp : strLower "hp" = "hp" := by decide
lemma strLower_h : strLower "h" = "h" := by decide
lemma strLower_p : strLower "p" = "p" := by decide
lemma strLower_hall : strLower "hall" = "hall" := by decide
lemma strLower_ped : strLower "pedersen" = "pedersen" := by decide
lemma strLower_hap : strLower "hallandpedersen" = "hallandpedersen" := by decide

lemma validHOP_hp : validHOP "hp" = true := by decide
lemma validHOP_h : validHOP "h" = true := by decide
lemma validHOP_p : validHOP "p" = true := by decide

lemma strContains_hp_h : strContains "hp" 'h' = true := by decide
lemma strContains_hp_p : strContains "hp" 'p' = true := by decide
lemma strContains_h_h : strContains "h" 'h' = true := by decide
lemma strContains_h_p : strContains "h" 'p' = false := by decide
lemma strContains_p_h : strContains "p" 'h' = false := by decide
lemma strContains_p_p : strContains "p" 'p' = true := by decide

lemma hopOf_hp : hopOf "hp" = "hp" := by decide
lemma hopOf_h : hopOf "h" = "h" := by decide
lemma hopOf_p : hopOf "p" = "p" := by decide
lemma hopOf_hall : hopOf "hall" = "h" := by decide
lemma hopOf_ped : hopOf "pedersen" = "p" := by decide
lemma hopOf_hap : hopOf "hallandpedersen" = "hp" := by decide

lemma foldl_epstein (mlt : ℝ) (rows : List HardyRow) (init : Epstein) :
    rows.foldl (epsteinStep mlt) init =
      ⟨init.maxvalue + (rows.map (fun r => r.maxvalue * trigVal r mlt)).sum,
       init.maxlatitude + (rows.map (fun r => r.maxlatitude * trigVal r mlt)).sum,
       init.upslope + (rows.map (fun r => r.upslope * trigVal r mlt)).sum,
       init.downslope + (rows.map (fun r => r.downslope * trigVal r mlt)).sum⟩ := by
  induction rows generalizing init with
  | nil => simp
  | cons r rs ih =>
    rw [List.foldl_cons, ih]
    simp only [epsteinStep, List.map_cons, List.sum_cons, Epstein.mk.injEq]
    refine ⟨by ring, by ring, by ring, by ring⟩

lemma epsteinParams_eq (rows : List HardyRow) (mlt : ℝ) :
    epsteinParams rows mlt =
      ⟨(rows.map (fun r => r.maxvalue * trigVal r mlt)).sum,
       (rows.map (fun r => r.maxlatitude * trigVal r mlt)).sum,
       (rows.map (fun r => r.upslope * trigVal r mlt)).sum,
       (rows.map (fun r => r.downslope * trigVal r mlt)).sum⟩ := by
  unfold epsteinParams
  rw [foldl_epstein]
  simp

lemma hardy_hp_ok (hallT pedT : List HardyRow) (mlat mlt : ℝ) (kp : PyVal)
    (hkp : kpValid kp = true) :
    hardy hallT pedT mlat mlt kp "hp" =
      .ok (.two (hardyCondOf hallT kp |mlat| mlt) (hardyCondOf pedT kp |mlat| mlt)) := by
  simp [hardy, hkp, strLower_hp, validHOP_hp]

lemma hardy_h_ok (hallT pedT : List HardyRow) (mlat mlt : ℝ) (kp : PyVal)
    (hkp : kpValid kp = true) :
    hardy hallT pedT mlat mlt kp "h" = .ok (.one (hardyCondOf hallT kp |mlat| mlt)) := by
  simp [hardy, hkp, strLower_h, validHOP_h]

lemma hardy_p_ok (hallT pedT : List HardyRow) (mlat mlt : ℝ) (kp : PyVal)
    (hkp : kpValid kp = true) :
    hardy hallT pedT mlat mlt kp "p" = .ok (.one (hardyCondOf pedT kp |mlat| mlt)) := by
  simp [hardy, hkp, strLower_p, validHOP_p]

lemma euv_hp_ok (prod : ℕ → ℝ) (sza F107 : ℝ) (cal : String) :
    EUV_conductance prod sza F107 "hp" cal =
      .ok (.two (sigH prod F107 cal sza) (sigP prod F107 cal sza)) := by
  simp [EUV_conductance, strLower_hp, validHOP_hp, strContains_hp_h, strContains_hp_p]

lemma euv_h_ok (prod : ℕ → ℝ) (sza F107 : ℝ) (cal : String) :
    EUV_conductance prod sza F107 "h" cal = .ok (.one (sigH prod F107 cal sza)) := by
  simp [EUV_conductance, strLower_h, validHOP_h, strContains_h_h, strContains_h_p]

lemma euv_p_ok (prod : ℕ → ℝ) (sza F107 : ℝ) (cal : String) :
    EUV_conductance prod sza F107 "p" cal = .ok (.one (sigP prod F107 cal sza)) := by
  simp [EUV_conductance, strLower_p, validHOP_p, strContains_p_h, strContains_p_p]

lemma interpIdx_nat (i : ℕ) (h : i ≤ 1199) : interpIdx ((i : ℝ) / 10) = i := by
  unfold interpIdx
  have h10 : (10 : ℝ) * ((i : ℝ) / 10) = ((i : ℕ) : ℝ) := by ring
  rw [h10, Int.floor_natCast]
  have h1 : min (1199 : ℤ) (i : ℤ) = (i : ℤ) := min_eq_right (by exact_mod_cast h)
  have h2 : max (0 : ℤ) (i : ℤ) = (i : ℤ) := max_eq_right (Int.ofNat_nonneg i)
  rw [h1, h2, Int.toNat_natCast]

lemma linInterp_at_grid (y : ℕ → ℝ) (i : ℕ) (h : i ≤ 1200) :
    linInterp y ((i : ℝ) / 10) = y i := by
  rcases Nat.lt_or_ge i 1200 with hi | hi
  · have hidx := interpIdx_nat i (by omega)
    unfold linInterp
    rw [hidx]
    have h10 : (10 : ℝ) * ((i : ℝ) / 10) = (i : ℝ) := by ring
    rw [h10]
    ring
  · have hie : i = 1200 := by omega
    subst hie
    unfold linInterp interpIdx
    have h10 : (10 : ℝ) * (((1200 : ℕ) : ℝ) / 10) = ((1200 : ℤ) : ℝ) := by push_cast; ring
    rw [h10, Int.floor_intCast]
    have hidx : (max (0 : ℤ) (min 1199 1200)).toNat = 1199 := by decide
    rw [hidx]
    push_cast
    norm_num

lemma kpValid_int_le (n : ℕ) (h : n ≤ 6) : kpValid (.int (n : ℤ)) = true := by
  unfold kpValid
  rw [List.any_eq_true]
  have hn : n ∈ List.range 7 := List.mem_range.mpr (by omega)
  refine ⟨n, hn, ?_⟩
  simp [pyEq, pyNum]

lemma kpKey_int_mem (n : ℕ) (h : n ≤ 6) : kpKey (.int (n : ℤ)) ∈ validKpLabels := by
  interval_cases n <;> decide

lemma hardyExc_hp_ok (hallT pedT : List HardyRow) (mlat mlt : ℝ) (kp : PyVal)
    (hkp : kpValid kp = true)
    (hH : (selectRows hallT (kpKey kp)).isEmpty = false)
    (hP : (selectRows pedT (kpKey kp)).isEmpty = false) :
    hardyExc hallT pedT mlat mlt kp "hp" =
      .ok (.two (hardyCondOf hallT kp |mlat| mlt) (hardyCondOf pedT kp |mlat| mlt)) := by
  unfold hardyExc
  simp only [strLower_hp, validHOP_hp, hkp, strContains_hp_h, strContains_hp_p, hH, hP,
    Bool.and_false, if_true, if_false, Bool.false_eq_true, ite_false, ite_true]
  exact hardy_hp_ok hallT pedT mlat mlt kp hkp

lemma hardyExc_zdiv_hall (hallT pedT : List HardyRow) (mlat mlt : ℝ) (kp : PyVal)
    (hkp : kpValid kp = true)
    (hH : (selectRows hallT (kpKey kp)).isEmpty = true) :
    hardyExc hallT pedT mlat mlt kp "hp" = .error "ZeroDivisionError" := by
  unfold hardyExc
  simp [strLower_hp, validHOP_hp, hkp, strContains_hp_h, hH]

lemma clampNeg_nonneg (v : ℝ) : 0 ≤ clampNeg v := by
  unfold clampNeg
  split
  · exact le_refl 0
  · linarith [not_lt.mp (by assumption : ¬ v < 0)]

lemma broadcastDim_one_left (z : ℕ) : broadcastDim 1 z = some z := by
  unfold broadcastDim
  by_cases h : (1 : ℕ) = z
  · subst h; simp
  · simp [h]

lemma broadcastDim_one_right (z : ℕ) : broadcastDim z 1 = some z := by
  unfold broadcastDim
  by_cases h : z = 1
  · subst h; simp
  · simp [h]

lemma bcRev_nil_right (xs : List ℕ) : bcRev xs [] = some xs := by
  cases xs <;> rfl

lemma bcRev_one_left (z : ℕ) (zs : List ℕ) : bcRev [1] (z :: zs) = some (z :: zs) := by
  simp [bcRev, broadcastDim_one_left]

lemma bcRev_one_right (z : ℕ) (zs : List ℕ) : bcRev (z :: zs) [1] = some (z :: zs) := by
  cases zs <;> simp [bcRev, broadcastDim_one_right, bcRev_nil_right]

lemma broadcastShape_nil_left (b : List ℕ) : broadcastShape [] b = some b := by
  simp [broadcastShape, bcRev]

lemma broadcastShape_nil_right (a : List ℕ) : broadcastShape a [] = some a := by
  simp [broadcastShape, bcRev_nil_right]

lemma broadcastShape_one_left (b : List ℕ) (hb : b ≠ []) : broadcastShape [1] b = some b := by
  obtain ⟨z, zs, hz⟩ :=
    List.exists_cons_of_ne_nil (mt List.reverse_eq_nil_iff.mp hb)
  unfold broadcastShape
  rw [show ([1] : List ℕ).reverse = [1] from rfl, hz, bcRev_one_left]
  simp [← hz]

lemma broadcastShape_one_right (a : List ℕ) (ha : a ≠ []) : broadcastShape a [1] = some a := by
  obtain ⟨z, zs, hz⟩ :=
    List.exists_cons_of_ne_nil (mt List.reverse_eq_nil_iff.mp ha)
  unfold broadcastShape
  rw [show ([1] : List ℕ).reverse = [1] from rfl, hz, bcRev_one_right]
  simp [← hz]

lemma ndmin1_ne (a : List ℕ) (ha : a ≠ []) : ndmin1 a = a := by simp [ndmin1, ha]

lemma ndBroadcast_eq (a b : List ℕ) (h : ¬(a = [] ∧ b = [])) :
    broadcastShape (ndmin1 a) (ndmin1 b) = broadcastShape a b := by
  rcases eq_or_ne a [] with ha | ha
  · subst ha
    have hb : b ≠ [] := by tauto
    rw [show ndmin1 [] = [1] from rfl, ndmin1_ne b hb, broadcastShape_one_left b hb,
      broadcastShape_nil_left]
  · rcases eq_or_ne b [] with hb | hb
    · subst hb
      rw [ndmin1_ne a ha, show ndmin1 [] = [1] from rfl, broadcastShape_one_right a ha,
        broadcastShape_nil_right]
    · rw [ndmin1_ne a ha, ndmin1_ne b hb]

lemma selectRows_empty (table : List HardyRow) (key : String)
    (hk : ∀ r ∈ table, r.Kp ∈ validKpLabels) (hkey : key ∉ validKpLabels) :
    selectRows table key = [] := by
  unfold selectRows
  rw [List.filter_eq_nil_iff]
  intro r hr
  simp only [decide_eq_true_eq]
  intro heq
  exact hkey (heq ▸ hk r hr)

/-! ## Claims -/

/-- C9 counterexample: for scalar (0-d) `mlat` and `mlt` inputs, `hardy`
returns a shape-`(1,)` array (because of the `ndmin = 1` promotion at line
291), not a scalar-shaped one as the claim's "scalar inputs yield
scalar-shaped output" requires; likewise `hardy_EUV`. -/
theorem c9_counterexample :
    hardyOutShape [] [] = some [1]
    ∧ hardyEUVOutShape [] [] = some [1]
    ∧ broadcastShape [] [] = some []
    ∧ hardyOutShape [] [] ≠ broadcastShape [] [] := by
  refine ⟨by decide, by decide, by decide, by decide⟩

/-- C9 (amended): output shapes equal the broadcast shape of the inputs —
exactly for `EUV_conductance` (any `sza` shape, scalars included), and for
`hardy` and `hardy_EUV` whenever not both coordinate inputs are scalar; when
both are scalar (0-d), those two return a 1-element 1-d array of shape `(1,)`
rather than a scalar-shaped array. -/
theorem c9_shape_preservation (a b s : List ℕ) (h : ¬(a = [] ∧ b = [])) :
    euvOutShape s = s
    ∧ hardyOutShape a b = broadcastShape a b
    ∧ hardyEUVOutShape a b = broadcastShape a b
    ∧ hardyOutShape [] [] = some [1]
    ∧ hardyEUVOutShape [] [] = some [1] :=
  ⟨rfl, ndBroadcast_eq a b h, ndBroadcast_eq a b h, by decide, by decide⟩

theorem c9_shape_preservation_witness :
    ¬(([2] : List ℕ) = [] ∧ ([2, 3] : List ℕ) = [])
    ∧ (euvOutShape [] = []
      ∧ hardyOutShape [2] [2, 3] = broadcastShape [2] [2, 3]
      ∧ hardyEUVOutShape [2] [2, 3] = broadcastShape [2] [2, 3]
      ∧ hardyOutShape [] [] = some [1]
      ∧ hardyEUVOutShape [] [] = some [1]) :=
  ⟨by decide, c9_shape_preservation [2] [2, 3] [] (by decide)⟩

/-- C7 (confirmed): `EUV_conductance` is total in `sza` — for every real
`sza`, below 0° or above 120° included, each channel value is the linear
interpolation/extrapolation of the scaled production table, clamped from
below at 0, hence always defined and non-negative. -/
theorem c7_extrapolation_clamp (prod : ℕ → ℝ) (sza F107 : ℝ) (cal : String) :
    sigH prod F107 cal sza = clampNeg (linInterp (hallScaledArr prod F107 (calFallback cal)) sza)
    ∧ sigP prod F107 cal sza = clampNeg (linInterp (pedScaledArr prod F107 (calFallback cal)) sza)
    ∧ 0 ≤ sigH prod F107 cal sza
    ∧ 0 ≤ sigP prod F107 cal sza
    ∧ EUV_conductance prod sza F107 "hp" cal =
        .ok (.two (sigH prod F107 cal sza) (sigP prod F107 cal sza)) :=
  ⟨rfl, rfl, clampNeg_nonneg _, clampNeg_nonneg _, euv_hp_ok prod sza F107 cal⟩

/-- C6 (confirmed): an unrecognized calibration name never fails — it is
replaced by the default `MoenBrekke1993` (lines 181–184), and the call
returns output identical to calling with `calibration='MoenBrekke1993'` on
the same inputs.  (The printed diagnostic is a side effect outside this
embedding.) -/
theorem c6_unknown_calibration (prod : ℕ → ℝ) (sza F107 : ℝ) (hop cal : String)
    (h : cal ∉ calList) :
    EUV_conductance prod sza F107 hop cal =
      EUV_conductance prod sza F107 hop "MoenBrekke1993" := by
  have hc : calFallback cal = "MoenBrekke1993" := by simp [calFallback, h]
  have hd : calFallback "MoenBrekke1993" = "MoenBrekke1993" := by decide
  have h1 : sigH prod F107 cal sza = sigH prod F107 "MoenBrekke1993" sza := by
    unfold sigH; rw [hc, hd]
  have h2 : sigP prod F107 cal sza = sigP prod F107 "MoenBrekke1993" sza := by
    unfold sigP; rw [hc, hd]
  unfold EUV_conductance
  rw [h1, h2]

theorem c6_unknown_calibration_witness :
    ("bogus" ∉ calList)
    ∧ EUV_conductance (fun _ => 0) 0 100 "hp" "bogus" =
        EUV_conductance (fun _ => 0) 0 100 "hp" "MoenBrekke1993" :=
  ⟨by decide, c6_unknown_calibration (fun _ => 0) 0 100 "hp" "bogus" (by decide)⟩

/-- C8 (confirmed): for both evaluators, the `'hp'` call returns exactly the
pair of the `'h'`-call and `'p'`-call results on the same inputs. -/
theorem c8_channel_consistency (prod : ℕ → ℝ) (sza F107 : ℝ) (cal : String)
    (hallT pedT : List HardyRow) (mlat mlt : ℝ) (kp : PyVal)
    (hkp : kpValid kp = true) :
    EUV_conductance prod sza F107 "hp" cal =
        .ok (.two (sigH prod F107 cal sza) (sigP prod F107 cal sza))
    ∧ EUV_conductance prod sza F107 "h" cal = .ok (.one (sigH prod F107 cal sza))
    ∧ EUV_conductance prod sza F107 "p" cal = .ok (.one (sigP prod F107 cal sza))
    ∧ hardy hallT pedT mlat mlt kp "hp" =
        .ok (.two (hardyCondOf hallT kp |mlat| mlt) (hardyCondOf pedT kp |mlat| mlt))
    ∧ hardy hallT pedT mlat mlt kp "h" = .ok (.one (hardyCondOf hallT kp |mlat| mlt))
    ∧ hardy hallT pedT mlat mlt kp "p" = .ok (.one (hardyCondOf pedT kp |mlat| mlt)) :=
  ⟨euv_hp_ok prod sza F107 cal, euv_h_ok prod sza F107 cal, euv_p_ok prod sza F107 cal,
    hardy_hp_ok hallT pedT mlat mlt kp hkp, hardy_h_ok hallT pedT mlat mlt kp hkp,
    hardy_p_ok hallT pedT mlat mlt kp hkp⟩

theorem c8_channel_consistency_witness :
    kpValid (.int 2) = true
    ∧ (EUV_conductance (fun _ => 1) 5 100 "hp" "MoenBrekke1993" =
        .ok (.two (sigH (fun _ => 1) 100 "MoenBrekke1993" 5)
                  (sigP (fun _ => 1) 100 "MoenBrekke1993" 5))
      ∧ EUV_conductance (fun _ => 1) 5 100 "h" "MoenBrekke1993" =
          .ok (.one (sigH (fun _ => 1) 100 "MoenBrekke1993" 5))
      ∧ EUV_conductance (fun _ => 1) 5 100 "p" "MoenBrekke1993" =
          .ok (.one (sigP (fun _ => 1) 100 "MoenBrekke1993" 5))
      ∧ hardy [] [] 60 3 (.int 2) "hp" =
          .ok (.two (hardyCondOf [] (.int 2) |(60 : ℝ)| 3) (hardyCondOf [] (.int 2) |(60 : ℝ)| 3))
      ∧ hardy [] [] 60 3 (.int 2) "h" = .ok (.one (hardyCondOf [] (.int 2) |(60 : ℝ)| 3))
      ∧ hardy [] [] 60 3 (.int 2) "p" = .ok (.one (hardyCondOf [] (.int 2) |(60 : ℝ)| 3))) :=
  ⟨by decide,
    c8_channel_consistency (fun _ => 1) 5 100 "MoenBrekke1993" [] [] 60 3 (.int 2) (by decide)⟩

/-- C5 counterexample: for `kp = 2.0` — a float, not an integer — the Kp
assert at line 289 passes (Python `in` compares by `==`, which is numeric
across types), so the failure the claim attributes to `InvalidArgument` does
not occur; the call then fails at line 316 with a `ZeroDivisionError` (plain
int division `0/0` in `(1 - S1/S2)` after the empty `K2.0` row selection),
a different error at a different site than the claim states. -/
theorem c5_counterexample :
    kpValid (.float 2) = true
    ∧ hardyExc [⟨"K3", "const", 1, 2, 3, 4⟩] [⟨"K3", "const", 1, 2, 3, 4⟩] 0 0 (.float 2) "hp"
        = .error "ZeroDivisionError"
    ∧ ("ZeroDivisionError" : String) ≠ "hardy: Kp must be an integer in the range 0-6" := by
  refine ⟨by decide, ?_, by decide⟩
  exact hardyExc_zdiv_hall _ _ _ _ _ (by decide) (by rfl)

/-- C5 (amended): `hardy` fails for every kp that is not an int-typed integer
in [0,6] and succeeds for every kp in ⟨0,...,6⟩, but the error is
`InvalidArgument` (the line-289 assert) exactly when kp is not *numerically
equal* (Python `==`) to an integer in 0..6 — in particular for kp in
⟨-1, 7, 2.5, "3"⟩; a kp that is numerically equal but of another type (such
as 2.0 or True) passes the assert, selects no rows, and the call instead
fails with a `ZeroDivisionError` from the int division `S1/S2` at line 316. -/
theorem c5_kp_domain (hallT pedT : List HardyRow) (mlat mlt : ℝ)
    (hSchema : ∀ r ∈ hallT, r.Kp ∈ validKpLabels)
    (hInhH : ∀ key ∈ validKpLabels, (selectRows hallT key).isEmpty = false)
    (hInhP : ∀ key ∈ validKpLabels, (selectRows pedT key).isEmpty = false) :
    (∀ kp : PyVal, kpValid kp = false →
      hardyExc hallT pedT mlat mlt kp "hp" =
        .error "hardy: Kp must be an integer in the range 0-6")
    ∧ kpValid (.int (-1)) = false
    ∧ kpValid (.int 7) = false
    ∧ kpValid (.float (mkRat 5 2)) = false
    ∧ kpValid (.str "3") = false
    ∧ (∀ kp : PyVal, kpValid kp = true → kpKey kp ∉ validKpLabels →
        hardyExc hallT pedT mlat mlt kp "hp" = .error "ZeroDivisionError")
    ∧ kpValid (.float 2) = true
    ∧ kpKey (.float 2) ∉ validKpLabels
    ∧ (∀ n : ℕ, n ≤ 6 →
        hardyExc hallT pedT mlat mlt (.int (n : ℤ)) "hp" =
          .ok (.two (hardyCondOf hallT (.int (n : ℤ)) |mlat| mlt)
                    (hardyCondOf pedT (.int (n : ℤ)) |mlat| mlt))) := by
  refine ⟨?_, by decide, by decide, by decide, by decide, ?_, by decide, by decide, ?_⟩
  · intro kp hk
    simp [hardyExc, strLower_hp, validHOP_hp, hk]
  · intro kp hkp hkey
    exact hardyExc_zdiv_hall hallT pedT mlat mlt kp hkp
      (by rw [selectRows_empty hallT _ hSchema hkey]; rfl)
  · intro n hn
    exact hardyExc_hp_ok hallT pedT mlat mlt (.int (n : ℤ)) (kpValid_int_le n hn)
      (hInhH _ (kpKey_int_mem n hn)) (hInhP _ (kpKey_int_mem n hn))

theorem c5_kp_domain_witness :
    (3 : ℕ) ≤ 6
    ∧ hardyExc T7 T7 0 0 (.int ((3 : ℕ) : ℤ)) "hp" =
        .ok (.two (hardyCondOf T7 (.int ((3 : ℕ) : ℤ)) |(0 : ℝ)| 0)
                  (hardyCondOf T7 (.int ((3 : ℕ) : ℤ)) |(0 : ℝ)| 0)) :=
  ⟨by decide,
    (c5_kp_domain T7 T7 0 0 (by decide) (by decide) (by decide)).2.2.2.2.2.2.2.2 3 (by decide)⟩

/-- C10 counterexample: with `kp = 2.0` and a schema-conforming coefficient
table, the call does not return: after the empty row selection the four
Epstein accumulators are still Python ints 0, and line 316 raises
`ZeroDivisionError` (int `0/0` in `(1 - S1/S2)`) — refuting "reconstructed as
0 rather than the call failing". -/
theorem c10_counterexample :
    hardyExc [⟨"K0", "const", 1, 65, 1, 3⟩] [⟨"K0", "const", 1, 65, 1, 3⟩] 5 6 (.float 2) "hp"
      = .error "ZeroDivisionError"
    ∧ isErr (hardyExc [⟨"K0", "const", 1, 65, 1, 3⟩] [⟨"K0", "const", 1, 65, 1, 3⟩]
        5 6 (.float 2) "hp") = true := by
  constructor
  · exact hardyExc_zdiv_hall _ _ _ _ _ (by decide) (by rfl)
  · rw [hardyExc_zdiv_hall _ _ _ _ _ (by decide) (by rfl)]; rfl

/-- C10 (amended): Kp validation is by numeric equality, so `kp = 2.0` and
`kp = True` pass the assert; their row keys `'K' + str(kp)` are `"K2.0"` and
`"KTrue"`, which match no row of a table whose Kp labels are `K0`..`K6`, so
the selected row set is empty and all four Epstein accumulators remain 0 —
whereupon the call fails with a `ZeroDivisionError` from the plain-int
division `S1/S2` at line 316, rather than returning. -/
theorem c10_numeric_kp (table : List HardyRow) (mlt : ℝ)
    (hk : ∀ r ∈ table, r.Kp ∈ validKpLabels) :
    kpValid (.float 2) = true
    ∧ kpValid (.bool true) = true
    ∧ kpKey (.float 2) = "K2.0"
    ∧ kpKey (.bool true) = "KTrue"
    ∧ selectRows table (kpKey (.float 2)) = []
    ∧ selectRows table (kpKey (.bool true)) = []
    ∧ epsteinParams (selectRows table (kpKey (.float 2))) mlt = ⟨0, 0, 0, 0⟩
    ∧ epsteinParams (selectRows table (kpKey (.bool true))) mlt = ⟨0, 0, 0, 0⟩
    ∧ (∀ mlat : ℝ,
        hardyExc table table mlat mlt (.float 2) "hp" = .error "ZeroDivisionError"
        ∧ hardyExc table table mlat mlt (.bool true) "hp" = .error "ZeroDivisionError") := by
  have hs2 : selectRows table (kpKey (.float 2)) = [] :=
    selectRows_empty table _ hk (by decide)
  have hsT : selectRows table (kpKey (.bool true)) = [] :=
    selectRows_empty table _ hk (by decide)
  refine ⟨by decide, by decide, by decide, by decide, hs2, hsT, ?_, ?_, ?_⟩
  · rw [hs2]; rfl
  · rw [hsT]; rfl
  · intro mlat
    exact ⟨hardyExc_zdiv_hall table table mlat mlt (.float 2) (by decide)
        (by rw [hs2]; rfl),
      hardyExc_zdiv_hall table table mlat mlt (.bool true) (by decide)
        (by rw [hsT]; rfl)⟩

theorem c10_numeric_kp_witness :
    (∀ r ∈ ([⟨"K3", "const", 1, 2, 3, 4⟩] : List HardyRow), r.Kp ∈ validKpLabels)
    ∧ (kpValid (.float 2) = true
      ∧ kpValid (.bool true) = true
      ∧ kpKey (.float 2) = "K2.0"
      ∧ kpKey (.bool true) = "KTrue"
      ∧ selectRows [⟨"K3", "const", 1, 2, 3, 4⟩] (kpKey (.float 2)) = []
      ∧ selectRows [⟨"K3", "const", 1, 2, 3, 4⟩] (kpKey (.bool true)) = []
      ∧ epsteinParams (selectRows [⟨"K3", "const", 1, 2, 3, 4⟩] (kpKey (.float 2))) 0 = ⟨0, 0, 0, 0⟩
      ∧ epsteinParams (selectRows [⟨"K3", "const", 1, 2, 3, 4⟩] (kpKey (.bool true))) 0 = ⟨0, 0, 0, 0⟩
      ∧ (∀ mlat : ℝ,
          hardyExc [⟨"K3", "const", 1, 2, 3, 4⟩] [⟨"K3", "const", 1, 2, 3, 4⟩]
            mlat 0 (.float 2) "hp" = .error "ZeroDivisionError"
          ∧ hardyExc [⟨"K3", "const", 1, 2, 3, 4⟩] [⟨"K3", "const", 1, 2, 3, 4⟩]
            mlat 0 (.bool true) "hp" = .error "ZeroDivisionError")) :=
  ⟨by intro r hr; simp at hr; subst hr; decide,
    c10_numeric_kp [⟨"K3", "const", 1, 2, 3, 4⟩] 0
      (by intro r hr; simp at hr; subst hr; decide)⟩


lemma floor1_app (m h0 c : ℝ) (h : m < h0) (hc : c < 0) : floor1 m h0 c = 0 := by
  unfold floor1; exact if_pos ⟨h, hc⟩

lemma floor1_skip (m h0 c : ℝ) (h : ¬(m < h0 ∧ c < 0)) : floor1 m h0 c = c := by
  unfold floor1; exact if_neg h

lemma floor2_app (m h0 c : ℝ) (h : h0 < m) (hc : c < 0.55) : floor2 m h0 c = 0.55 := by
  unfold floor2; exact if_pos ⟨h, hc⟩

lemma floor2_skip (m h0 c : ℝ) (h : ¬(h0 < m ∧ c < 0.55)) : floor2 m h0 c = c := by
  unfold floor2; exact if_neg h

lemma applyFloors_eq (m h0 c : ℝ) :
    applyFloors m h0 c =
      if m < h0 ∧ c < 0 then 0
      else if h0 < m ∧ c < 0.55 then 0.55
      else c := by
  unfold applyFloors
  rcases lt_trichotomy m h0 with hm | hm | hm
  · have hnot : ¬(h0 < m) := not_lt.mpr (le_of_lt hm)
    by_cases hc : c < 0
    · rw [floor1_app m h0 c hm hc, floor2_skip m h0 0 (fun hcon => hnot hcon.1),
        if_pos (And.intro hm hc)]
    · rw [floor1_skip m h0 c (fun hcon => hc hcon.2),
        floor2_skip m h0 c (fun hcon => hnot hcon.1),
        if_neg (fun hcon => hc hcon.2), if_neg (fun hcon => hnot hcon.1)]
  · subst hm
    rw [floor1_skip m m c (fun hcon => lt_irrefl m hcon.1),
      floor2_skip m m c (fun hcon => lt_irrefl m hcon.1),
      if_neg (fun hcon => lt_irrefl m hcon.1), if_neg (fun hcon => lt_irrefl m hcon.1)]
  · have hnot : ¬(m < h0) := not_lt.mpr (le_of_lt hm)
    rw [floor1_skip m h0 c (fun hcon => hnot hcon.1), if_neg (fun hcon => hnot hcon.1)]
    by_cases hc : c < 0.55
    · rw [floor2_app m h0 c hm hc, if_pos (And.intro hm hc)]
    · rw [floor2_skip m h0 c (fun hcon => hc hcon.2), if_neg (fun hcon => hc hcon.2)]

/-- C2 (confirmed): each of the four Epstein parameters is reconstructed as
the sum over the selected rows of `coefficient * trig(n * mlt / 12 * π)`,
where `trig` is sine exactly for rows whose term label starts with `Sin` and
cosine otherwise (the `const` term being a cosine of harmonic order 0), and
the pre-floor conductance is the Epstein transition formula
`r + S1*(mlat - h0) + (S2 - S1)*ln((1 - S1/(S2*exp(-(mlat-h0))))/(1 - S1/S2))`;
`hardy` returns exactly the floored value of that formula per channel. -/
theorem c2_epstein_reconstruction (hallT pedT : List HardyRow) (mlat mlt : ℝ) (kp : PyVal)
    (hkp : kpValid kp = true) :
    (∀ rows : List HardyRow, ∀ m : ℝ,
      (epsteinParams rows m).maxvalue
          = (rows.map (fun r =>
              r.maxvalue * termTrig r.term ((termOrder r.term : ℝ) * m / 12 * Real.pi))).sum
      ∧ (epsteinParams rows m).maxlatitude
          = (rows.map (fun r =>
              r.maxlatitude * termTrig r.term ((termOrder r.term : ℝ) * m / 12 * Real.pi))).sum
      ∧ (epsteinParams rows m).upslope
          = (rows.map (fun r =>
              r.upslope * termTrig r.term ((termOrder r.term : ℝ) * m / 12 * Real.pi))).sum
      ∧ (epsteinParams rows m).downslope
          = (rows.map (fun r =>
              r.downslope * termTrig r.term ((termOrder r.term : ℝ) * m / 12 * Real.pi))).sum)
    ∧ (∀ t : String, (t.take 3 = "Sin" → termTrig t = Real.sin)
        ∧ (t.take 3 ≠ "Sin" → termTrig t = Real.cos))
    ∧ termOrder "const" = 0
    ∧ termTrig "const" = Real.cos
    ∧ (∀ p : Epstein, ∀ m : ℝ,
        epsteinCond p m = p.maxvalue + p.upslope * (m - p.maxlatitude)
          + (p.downslope - p.upslope) *
            Real.log ((1 - p.upslope / (p.downslope * Real.exp (-(m - p.maxlatitude)))) /
              (1 - p.upslope / p.downslope)))
    ∧ hardy hallT pedT mlat mlt kp "hp" =
        .ok (.two
          (applyFloors |mlat| (epsteinParams (selectRows hallT (kpKey kp)) mlt).maxlatitude
            (epsteinCond (epsteinParams (selectRows hallT (kpKey kp)) mlt) |mlat|))
          (applyFloors |mlat| (epsteinParams (selectRows pedT (kpKey kp)) mlt).maxlatitude
            (epsteinCond (epsteinParams (selectRows pedT (kpKey kp)) mlt) |mlat|))) := by
  refine ⟨?_, ?_, by decide, ?_, fun p m => rfl, ?_⟩
  · intro rows m
    rw [epsteinParams_eq]
    exact ⟨rfl, rfl, rfl, rfl⟩
  · intro t
    constructor
    · intro h; unfold termTrig; rw [if_pos h]
    · intro h; unfold termTrig; rw [if_neg h]
  · unfold termTrig; rw [if_neg (by decide)]
  · exact hardy_hp_ok hallT pedT mlat mlt kp hkp

theorem c2_epstein_reconstruction_witness :
    kpValid (.int 0) = true
    ∧ hardy [] [] 0 0 (.int 0) "hp" =
        .ok (.two
          (applyFloors |(0 : ℝ)| (epsteinParams (selectRows [] (kpKey (.int 0))) 0).maxlatitude
            (epsteinCond (epsteinParams (selectRows [] (kpKey (.int 0))) 0) |(0 : ℝ)|))
          (applyFloors |(0 : ℝ)| (epsteinParams (selectRows [] (kpKey (.int 0))) 0).maxlatitude
            (epsteinCond (epsteinParams (selectRows [] (kpKey (.int 0))) 0) |(0 : ℝ)|))) :=
  ⟨by decide, (c2_epstein_reconstruction [] [] 0 0 (.int 0) (by decide)).2.2.2.2.2⟩

/-- C1 (amended): the floors use a *strict* poleward test (`mlat > h0`, lines
320 and 344), so: equatorward of `h0` a negative value is set to 0 and the
result is ≥ 0; strictly poleward of `h0` a value below 0.55 is set to 0.55
and the result is ≥ 0.55; but at a sample with `mlat = h0` exactly, the
conductance is returned unfloored (neither mask applies) and may be negative.
`hardy` returns exactly these floored per-channel values. -/
theorem c1_floor_policy (hallT pedT : List HardyRow) (mlat mlt : ℝ) (kp : PyVal)
    (hkp : kpValid kp = true) :
    (∀ m h0 c : ℝ,
      (m < h0 → c < 0 → applyFloors m h0 c = 0)
      ∧ (h0 < m → c < 0.55 → applyFloors m h0 c = 0.55)
      ∧ (m < h0 → 0 ≤ applyFloors m h0 c)
      ∧ (h0 < m → 0.55 ≤ applyFloors m h0 c)
      ∧ (m = h0 → applyFloors m h0 c = c))
    ∧ hardy hallT pedT mlat mlt kp "hp" =
        .ok (.two (hardyCondOf hallT kp |mlat| mlt) (hardyCondOf pedT kp |mlat| mlt)) := by
  refine ⟨?_, hardy_hp_ok hallT pedT mlat mlt kp hkp⟩
  intro m h0 c
  simp only [applyFloors_eq]
  refine ⟨?_, ?_, ?_, ?_, ?_⟩
  · intro h1 h2
    rw [if_pos (And.intro h1 h2)]
  · intro h1 h2
    rw [if_neg (fun hcon => absurd hcon.1 (not_lt.mpr (le_of_lt h1))),
      if_pos (And.intro h1 h2)]
  · intro h1
    by_cases hc : c < 0
    · rw [if_pos (And.intro h1 hc)]
    · rw [if_neg (fun hcon => hc hcon.2),
        if_neg (fun hcon => absurd hcon.1 (not_lt.mpr (le_of_lt h1)))]
      exact not_lt.mp hc
  · intro h1
    rw [if_neg (fun hcon => absurd hcon.1 (not_lt.mpr (le_of_lt h1)))]
    by_cases hc : c < 0.55
    · rw [if_pos (And.intro h1 hc)]
    · rw [if_neg (fun hcon => hc hcon.2)]
      exact not_lt.mp hc
  · intro h1
    subst h1
    rw [if_neg (fun hcon => lt_irrefl m hcon.1), if_neg (fun hcon => lt_irrefl m hcon.1)]

theorem c1_floor_policy_witness :
    kpValid (.int 1) = true
    ∧ ((∀ m h0 c : ℝ,
        (m < h0 → c < 0 → applyFloors m h0 c = 0)
        ∧ (h0 < m → c < 0.55 → applyFloors m h0 c = 0.55)
        ∧ (m < h0 → 0 ≤ applyFloors m h0 c)
        ∧ (h0 < m → 0.55 ≤ applyFloors m h0 c)
        ∧ (m = h0 → applyFloors m h0 c = c))
      ∧ hardy [] [] 1 2 (.int 1) "hp" =
          .ok (.two (hardyCondOf [] (.int 1) |(1 : ℝ)| 2) (hardyCondOf [] (.int 1) |(1 : ℝ)| 2))) :=
  ⟨by decide, c1_floor_policy [] [] 1 2 (.int 1) (by decide)⟩

noncomputable section

/-- A Hardy coefficient table consistent with the documented schema: one `K3`
constant row with maxvalue −1, maxlatitude 70, up-slope 1, down-slope 2. -/
def T1 : List HardyRow := [⟨"K3", "const", -1, 70, 1, 2⟩]

end

/-- C1 counterexample: with a schema-conforming coefficient table whose
reconstructed parameters at `mlt = 0` are `r = −1`, `h0 = 70`, `S1 = 1`,
`S2 = 2`, evaluating `hardy` at `mlat = 70 = h0` returns −1: the sample has
`mlat ≥ h0` but its value is neither raised to 0.55 nor even to 0, because
the source's poleward floor tests `mlat > h0` strictly (line 320), refuting
"at every sample where mlat ≥ h0 a value below 0.55 is replaced by 0.55" and
"every returned value is ≥ 0". -/
theorem c1_counterexample :
    hardy T1 T1 70 0 (.int 3) "hp" = .ok (.two (-1) (-1))
    ∧ (epsteinParams (selectRows T1 (kpKey (.int 3))) 0).maxlatitude = 70
    ∧ ¬ (0 ≤ (-1 : ℝ))
    ∧ ¬ ((0.55 : ℝ) ≤ -1) := by
  have hsel : selectRows T1 (kpKey (.int 3)) = T1 := rfl
  have ht : trigVal ⟨"K3", "const", -1, 70, 1, 2⟩ 0 = 1 := by
    unfold trigVal
    rw [show termOrder "const" = 0 from by decide,
      show termTrig "const" = Real.cos from by unfold termTrig; rw [if_neg (by decide)]]
    norm_num
  have hp : epsteinParams (selectRows T1 (kpKey (.int 3))) 0 = ⟨-1, 70, 1, 2⟩ := by
    rw [hsel]
    unfold T1 epsteinParams
    rw [List.foldl_cons, List.foldl_nil]
    unfold epsteinStep
    rw [ht]
    simp only [Epstein.mk.injEq]
    norm_num
  have hcond : epsteinCond ⟨-1, 70, 1, 2⟩ 70 = -1 := by
    unfold epsteinCond
    norm_num
  have hfl : applyFloors 70 70 (-1 : ℝ) = -1 := by
    unfold applyFloors floor2 floor1
    norm_num
  have habs : |(70 : ℝ)| = 70 := abs_of_nonneg (by norm_num)
  have hcof : hardyCondOf T1 (.int 3) 70 0 = -1 := by
    unfold hardyCondOf
    rw [hp]
    show applyFloors 70 (70 : ℝ) (epsteinCond ⟨-1, 70, 1, 2⟩ 70) = -1
    rw [hcond, hfl]
  refine ⟨?_, by rw [hp], by norm_num, by norm_num⟩
  rw [hardy_hp_ok T1 T1 70 0 (.int 3) (by decide), habs, hcof]

/-- C3 (confirmed): for each of the three calibrations and every grid index
`i ≤ 1200` (grid point `i/10` degrees, covering 0° to 120° in 0.1° steps),
the pre-clamp interpolated value at the grid point equals the scaled table
value given by the calibration's formula. -/
theorem c3_euv_scaling (prod : ℕ → ℝ) (F107 : ℝ) (i : ℕ) (h : i ≤ 1200) :
    linInterp (hallScaledArr prod F107 "MoenBrekke1993") ((i : ℝ) / 10)
      = F107 ^ (0.53 : ℝ) * (0.81 * prod i + 0.54 * Real.sqrt (prod i))
    ∧ linInterp (pedScaledArr prod F107 "MoenBrekke1993") ((i : ℝ) / 10)
      = F107 ^ (0.49 : ℝ) * (0.34 * prod i + 0.93 * Real.sqrt (prod i))
    ∧ linInterp (hallScaledArr prod F107 "MoenBrekke1993_alt") ((i : ℝ) / 10)
      = F107 ^ (0.53 : ℝ) * 1.35 * prod i ^ (0.79 : ℝ)
    ∧ linInterp (pedScaledArr prod F107 "MoenBrekke1993_alt") ((i : ℝ) / 10)
      = F107 ^ (0.49 : ℝ) * 1.27 * prod i ^ (0.65 : ℝ)
    ∧ linInterp (hallScaledArr prod F107 "Cousinsetal2015") ((i : ℝ) / 10)
      = F107 ^ (0.5 : ℝ) * 1.8 * prod i
    ∧ linInterp (pedScaledArr prod F107 "Cousinsetal2015") ((i : ℝ) / 10)
      = F107 ^ (0.667 : ℝ) * 0.5 * prod i ^ (0.667 : ℝ) := by
  refine ⟨?_, ?_, ?_, ?_, ?_, ?_⟩ <;> rw [linInterp_at_grid _ i h]
  · simp [hallScaledArr]
  · simp [pedScaledArr]
  · simp [hallScaledArr]
  · simp [pedScaledArr]
  · simp [hallScaledArr, Real.rpow_one]
  · simp [pedScaledArr]

theorem c3_euv_scaling_witness :
    (0 : ℕ) ≤ 1200
    ∧ (linInterp (hallScaledArr (fun _ => 1) 1 "MoenBrekke1993") (((0 : ℕ) : ℝ) / 10)
        = (1 : ℝ) ^ (0.53 : ℝ) * (0.81 * (fun _ => (1 : ℝ)) 0 + 0.54 * Real.sqrt ((fun _ => (1 : ℝ)) 0))
      ∧ linInterp (pedScaledArr (fun _ => 1) 1 "MoenBrekke1993") (((0 : ℕ) : ℝ) / 10)
        = (1 : ℝ) ^ (0.49 : ℝ) * (0.34 * (fun _ => (1 : ℝ)) 0 + 0.93 * Real.sqrt ((fun _ => (1 : ℝ)) 0))
      ∧ linInterp (hallScaledArr (fun _ => 1) 1 "MoenBrekke1993_alt") (((0 : ℕ) : ℝ) / 10)
        = (1 : ℝ) ^ (0.53 : ℝ) * 1.35 * (fun _ => (1 : ℝ)) 0 ^ (0.79 : ℝ)
      ∧ linInterp (pedScaledArr (fun _ => 1) 1 "MoenBrekke1993_alt") (((0 : ℕ) : ℝ) / 10)
        = (1 : ℝ) ^ (0.49 : ℝ) * 1.27 * (fun _ => (1 : ℝ)) 0 ^ (0.65 : ℝ)
      ∧ linInterp (hallScaledArr (fun _ => 1) 1 "Cousinsetal2015") (((0 : ℕ) : ℝ) / 10)
        = (1 : ℝ) ^ (0.5 : ℝ) * 1.8 * (fun _ => (1 : ℝ)) 0
      ∧ linInterp (pedScaledArr (fun _ => 1) 1 "Cousinsetal2015") (((0 : ℕ) : ℝ) / 10)
        = (1 : ℝ) ^ (0.667 : ℝ) * 0.5 * (fun _ => (1 : ℝ)) 0 ^ (0.667 : ℝ)) :=
  ⟨by decide, c3_euv_scaling (fun _ => 1) 1 0 (by decide)⟩

/-- C4 (confirmed): for every valid channel token, coordinate frame and valid
kp, each channel of `hardy_EUV`'s output equals the Hardy component at the
derived `(mlat, mlt)` plus the EUV component at the derived `sza` plus the
constant `starlight` term. -/
theorem c4_combiner_sum (hallT pedT : List HardyRow) (prod : ℕ → ℝ)
    (geo2mag mag2geo : ℝ → ℝ → ℝ × ℝ) (mlon2mlt : ℝ → ℝ) (szaOf : ℝ → ℝ → ℝ)
    (lon lat : ℝ) (kp : PyVal) (starlight F107 : ℝ) (dipole : Bool) (cal : String)
    (mlat mlon glat glon mlt sza : ℝ)
    (hkp : kpValid kp = true)
    (hmlat : mlat = if dipole then lat else (geo2mag lat lon).1)
    (hmlon : mlon = if dipole then lon else (geo2mag lat lon).2)
    (hglat : glat = if dipole then (mag2geo lat lon).1 else lat)
    (hglon : glon = if dipole then (mag2geo lat lon).2 else lon)
    (hmlt : mlt = mlon2mlt mlon)
    (hsza : sza = szaOf glat glon) :
    (∀ s ∈ (["hp", "hallandpedersen"] : List String),
      hardy_EUV hallT pedT prod geo2mag mag2geo mlon2mlt szaOf lon lat kp s
          starlight F107 dipole cal
        = .ok (.two (hardyCondOf hallT kp |mlat| mlt + sigH prod F107 cal sza + starlight)
                    (hardyCondOf pedT kp |mlat| mlt + sigP prod F107 cal sza + starlight)))
    ∧ (∀ s ∈ (["h", "hall"] : List String),
      hardy_EUV hallT pedT prod geo2mag mag2geo mlon2mlt szaOf lon lat kp s
          starlight F107 dipole cal
        = .ok (.one (hardyCondOf hallT kp |mlat| mlt + sigH prod F107 cal sza + starlight)))
    ∧ (∀ s ∈ (["p", "pedersen"] : List String),
      hardy_EUV hallT pedT prod geo2mag mag2geo mlon2mlt szaOf lon lat kp s
          starlight F107 dipole cal
        = .ok (.one (hardyCondOf pedT kp |mlat| mlt + sigP prod F107 cal sza + starlight))) := by
  subst hmlat hmlon hglat hglon hmlt hsza
  refine ⟨?_, ?_, ?_⟩ <;> intro s hs <;> simp only [List.mem_cons, List.mem_singleton,
    List.not_mem_nil, or_false] at hs
  · rcases hs with hs | hs <;> subst hs
    · simp [hardy_EUV, combine, strLower_hp, hopOf_hp, euv_hp_ok,
        hardy_hp_ok _ _ _ _ _ hkp]
    · simp [hardy_EUV, combine, strLower_hap, hopOf_hap, euv_hp_ok,
        hardy_hp_ok _ _ _ _ _ hkp]
  · rcases hs with hs | hs <;> subst hs
    · simp [hardy_EUV, combine, strLower_h, hopOf_h, euv_h_ok,
        hardy_hp_ok _ _ _ _ _ hkp]
    · simp [hardy_EUV, combine, strLower_hall, hopOf_hall, euv_h_ok,
        hardy_hp_ok _ _ _ _ _ hkp]
  · rcases hs with hs | hs <;> subst hs
    · simp [hardy_EUV, combine, strLower_p, hopOf_p, euv_p_ok,
        hardy_hp_ok _ _ _ _ _ hkp]
    · simp [hardy_EUV, combine, strLower_ped, hopOf_ped, euv_p_ok,
        hardy_hp_ok _ _ _ _ _ hkp]

theorem c4_combiner_sum_witness :
    kpValid (.int 4) = true
    ∧ ((∀ s ∈ (["hp", "hallandpedersen"] : List String),
        hardy_EUV [] [] (fun _ => 1) (fun a b => (a, b)) (fun a b => (a, b))
            (fun x => x) (fun a _ => a) 1 2 (.int 4) s 3 100 true "MoenBrekke1993"
          = .ok (.two (hardyCondOf [] (.int 4) |(2 : ℝ)| 1 + sigH (fun _ => 1) 100 "MoenBrekke1993" 2 + 3)
                      (hardyCondOf [] (.int 4) |(2 : ℝ)| 1 + sigP (fun _ => 1) 100 "MoenBrekke1993" 2 + 3)))
      ∧ (∀ s ∈ (["h", "hall"] : List String),
        hardy_EUV [] [] (fun _ => 1) (fun a b => (a, b)) (fun a b => (a, b))
            (fun x => x) (fun a _ => a) 1 2 (.int 4) s 3 100 true "MoenBrekke1993"
          = .ok (.one (hardyCondOf [] (.int 4) |(2 : ℝ)| 1 + sigH (fun _ => 1) 100 "MoenBrekke1993" 2 + 3)))
      ∧ (∀ s ∈ (["p", "pedersen"] : List String),
        hardy_EUV [] [] (fun _ => 1) (fun a b => (a, b)) (fun a b => (a, b))
            (fun x => x) (fun a _ => a) 1 2 (.int 4) s 3 100 true "MoenBrekke1993"
          = .ok (.one (hardyCondOf [] (.int 4) |(2 : ℝ)| 1 + sigP (fun _ => 1) 100 "MoenBrekke1993" 2 + 3)))) :=
  ⟨by decide,
    c4_combiner_sum [] [] (fun _ => 1) (fun a b => (a, b)) (fun a b => (a, b))
      (fun x => x) (fun a _ => a) 1 2 (.int 4) 3 100 true "MoenBrekke1993"
      2 1 2 1 1 2 (by decide) rfl rfl rfl rfl rfl rfl⟩

end Lompe
